import Mathlib

/-!
# http-prober: address generation and error classification

A shallow embedding of `http-prober/main.go`.  The program parses a CIDR
network, then loops forever: it draws a pseudo-random offset, ORs it into the
masked base address, issues one HTTP GET and panics on any error it does not
recognise.

Conventions of the embedding:

* a Go `byte` is a natural number below 256, conversions `byte(x)` are `% 256`;
* a Go `int` is a 64-bit two's complement integer (`intSize = 64`, the size on
  the platforms the tool is deployed to), an `int32` a 32-bit one; both are
  integers wrapped explicitly with `wrapInt`;
* a Go slice is a list, the `nil` slice is the empty list;
* a Go string is the list of its characters (all characters the parsers look
  at are ASCII, where characters and bytes coincide);
* the functions of the Go standard library that `main.go` calls
  (`net.ParseCIDR`, `net.CIDRMask`, `IP.Mask`, `IPMask.Size`, `rand.Int31n`)
  are embedded from the standard library of the Go release the tool was
  written against (Go 1.14/1.15); the IPv6 address parser, the pseudo-random
  source and the network are inputs of the model.
-/

namespace HttpProber

/-! ## Machine integers -/

/-- Width of the Go type `int`. -/
def intSize : Nat := 64

/-- Two's complement wrap of an integer to `w` bits (`w ≥ 1`). -/
def wrapInt (w : Nat) (x : Int) : Int :=
  (x + 2 ^ (w - 1)) % 2 ^ w - 2 ^ (w - 1)

/-- Conversion `int32(x)`. -/
def toInt32 (x : Int) : Int := wrapInt 32 x

/-- Conversion `byte(x)` of a signed integer. -/
def toByte (x : Int) : Nat := (x % 256).toNat

/-- Go `x << s` on `int`: a negative shift count is a run-time panic, bits
shifted out of the word are lost. -/
def shiftLeftInt (x s : Int) : Option Int :=
  if s < 0 then none else some (wrapInt intSize (x * 2 ^ s.toNat))

/-! ## package net: addresses and masks -/

/-- Go `net.IP`: a slice of bytes. -/
abbrev IP := List Nat

/-- Go `net.IPMask`: a slice of bytes. -/
abbrev IPMask := List Nat

/-- Go `net.IPNet`. -/
structure IPNet where
  IP : IP
  Mask : IPMask
deriving DecidableEq, Repr

def IPv4len : Nat := 4

def IPv6len : Nat := 16

/-- Go `v4InV6Prefix`: the twelve bytes that start an IPv4 address in its
16-byte form. -/
def v4InV6Lead : List Nat := [0, 0, 0, 0, 0, 0, 0, 0, 0, 0, 0xff, 0xff]

/-- Go `net.IPv4(a, b, c, d)`: the 16-byte form of an IPv4 address. -/
def IPv4 (a b c d : Nat) : IP :=
  v4InV6Lead ++ [a % 256, b % 256, c % 256, d % 256]

/-- Go `allFF`. -/
def allFF (b : List Nat) : Bool := b.all (fun x => x == 0xff)

/-- The loop of `net.CIDRMask`: `l` bytes still to write, `n` ones left. -/
def cidrMaskBytes : Nat → Nat → List Nat
  | 0, _ => []
  | l + 1, n =>
    if n ≥ 8 then 0xff :: cidrMaskBytes l (n - 8)
    else (0xff ^^^ (0xff >>> n)) :: cidrMaskBytes l 0

/-- Go `net.CIDRMask(ones, bits)`. -/
def CIDRMask (ones bits : Int) : IPMask :=
  if bits ≠ 8 * IPv4len ∧ bits ≠ 8 * IPv6len then []
  else if ones < 0 ∨ ones > bits then []
  else cidrMaskBytes (bits.toNat / 8) ones.toNat

/-- Go `IP.Mask(mask)`: a freshly allocated slice, `ip` itself is not
written to. -/
def IP.Mask (ip : IP) (mask : IPMask) : IP :=
  let mask :=
    if mask.length = IPv6len ∧ ip.length = IPv4len ∧ allFF (mask.take 12) then mask.drop 12
    else mask
  let ip :=
    if mask.length = IPv4len ∧ ip.length = IPv6len ∧ ip.take 12 = v4InV6Lead then ip.drop 12
    else ip
  if ip.length ≠ mask.length then []
  else List.zipWith (fun x m => x &&& m) ip mask

/-- The inner loop of `simpleMaskLength`, `for v&0x80 != 0 { n++; v <<= 1 }`.
A byte is zero after eight shifts, so eight rounds always reach the exit. -/
def leadingOnes : Nat → Nat → Int → Nat × Int
  | 0, v, n => (v, n)
  | f + 1, v, n =>
    if v &&& 0x80 ≠ 0 then leadingOnes f ((v <<< 1) % 256) (n + 1) else (v, n)

/-- The outer loop of `simpleMaskLength`. -/
def simpleMaskLengthFrom : List Nat → Int → Int
  | [], n => n
  | v :: rest, n =>
    if v = 0xff then simpleMaskLengthFrom rest (n + 8)
    else
      let r := leadingOnes 8 v n
      if r.1 ≠ 0 then -1
      else if rest.all (fun x => x == 0) then r.2
      else -1

/-- Go `simpleMaskLength`. -/
def simpleMaskLength (mask : IPMask) : Int := simpleMaskLengthFrom mask 0

/-- Go `IPMask.Size()`: `(ones, bits)`, or `(0, 0)` for a mask that is not
ones followed by zeros. -/
def IPMask.Size (m : IPMask) : Int × Int :=
  let ones := simpleMaskLength m
  if ones = -1 then (0, 0) else (ones, (m.length : Int) * 8)

/-! ## package net: parsing -/

/-- Go `big`, the overflow bound of `dtoi`. -/
def big : Nat := 0xFFFFFF

/-- The loop of `dtoi`: `n` the value so far, `i` the digits read. -/
def dtoiFrom : List Char → Nat → Nat → Nat × Nat × Bool
  | [], n, i => if i = 0 then (0, 0, false) else (n, i, true)
  | c :: cs, n, i =>
    if 48 ≤ c.toNat ∧ c.toNat ≤ 57 then
      let m := n * 10 + (c.toNat - 48)
      if m ≥ big then (big, i, false) else dtoiFrom cs m (i + 1)
    else if i = 0 then (0, 0, false) else (n, i, true)

/-- Go `dtoi(s)`: decimal to integer, `(value, characters consumed, ok)`. -/
def dtoi (s : List Char) : Nat × Nat × Bool := dtoiFrom s 0 0

/-- The loop of `parseIPv4`: `r` fields still to read, `i` the index of the
next field, `p` the bytes read so far. -/
def parseIPv4Fields : Nat → Nat → List Char → List Nat → Option (List Nat × List Char)
  | 0, _, s, p => some (p, s)
  | r + 1, i, s, p =>
    if s.length = 0 then none
    else
      let t : Option (List Char) :=
        if i > 0 then
          match s with
          | c :: cs => if c.toNat ≠ 46 then none else some cs
          | [] => none
        else some s
      match t with
      | none => none
      | some s1 =>
        let d := dtoi s1
        if !d.2.2 ∨ d.1 > 0xFF then none
        else parseIPv4Fields r (i + 1) (s1.drop d.2.1) (p ++ [d.1 % 256])

/-- Go `parseIPv4(s)`; `none` is the `nil` address.  (Later Go releases also
reject fields with a leading zero; nothing below depends on which strings
parse, only on the shape of what a successful parse returns.) -/
def parseIPv4 (s : List Char) : Option IP :=
  match parseIPv4Fields 4 0 s [] with
  | some ([a, b, c, d], []) => some (IPv4 a b c d)
  | _ => none

/-- A 16-byte address, the result of the IPv6 address parser. -/
abbrev Addr16 := { l : List Nat // l.length = 16 }

/-- Go `net.ParseCIDR(s)`: the address and the network, or `none` for the
`*net.ParseError`.  The IPv6 address parser is a parameter. -/
def ParseCIDR (parseIPv6 : List Char → Option Addr16) (s : String) : Option (IP × IPNet) :=
  let cs := s.data
  let addr := cs.takeWhile (fun c => c.toNat ≠ 47)
  match cs.dropWhile (fun c => c.toNat ≠ 47) with
  | [] => none
  | _ :: mask =>
    let r : Nat × Option IP :=
      match parseIPv4 addr with
      | some ip => (IPv4len, some ip)
      | none => (IPv6len, (parseIPv6 addr).map (fun a => a.val))
    let d := dtoi mask
    match r.2 with
    | none => none
    | some ip =>
      if !d.2.2 ∨ d.2.1 ≠ mask.length ∨ d.1 > 8 * r.1 then none
      else
        let m := CIDRMask d.1 (8 * r.1 : Nat)
        some (ip, { IP := IP.Mask ip m, Mask := m })

/-! ## Errors -/

/-- A Go `error` value, as far as `call` and `main` tell errors apart: the
two sentinel values of package `context`, the two pointer types that `call`
asserts on, and every other dynamic type (its `%T` and its message). -/
inductive GoError where
  | canceled
  | deadlineExceeded
  | opError (op net : String) (err : GoError)
  | urlError (op url : String) (err : GoError)
  | other (typ msg : String)
deriving DecidableEq, Repr

/-- The `%T` of an error: the name of its dynamic type. -/
def GoError.typeName : GoError → String
  | .canceled => "*errors.errorString"
  | .deadlineExceeded => "context.deadlineExceededError"
  | .opError _ _ _ => "*net.OpError"
  | .urlError _ _ _ => "*url.Error"
  | .other typ _ => typ

/-- The `*net.ParseError` of `net.ParseCIDR`. -/
def cidrParseError (s : String) : GoError :=
  .other "*net.ParseError" ("invalid CIDR address: " ++ s)

/-! ## The environment -/

/-- What one probe meets.  `http.NewRequestWithContext` is called with a
valid method and a non-nil context, so it fails only when `url.Parse` does,
with `&url.Error{"parse", url, inner}`; `http.DefaultClient.Do` returns an
error or a response; `io.Copy` on the body of a response returns an error or
`nil`. -/
inductive Outcome where
  | requestError (url : String) (inner : GoError)
  | doError (err : GoError)
  | response (copyErr : Option GoError)
deriving DecidableEq, Repr

/-- The inputs of a run that the program does not compute itself. -/
structure Env where
  /-- Go `parseIPv6`. -/
  parseIPv6 : List Char → Option Addr16
  /-- The value of `r.Int31()` that call number `k` of `rand.Int31n` uses
  (for a bound that is not a power of two, the first one it does not
  reject). -/
  int31 : Nat → Nat
  /-- What probe number `k` meets when it targets `ip`. -/
  outcome : Nat → IP → Outcome

/-- Go `rand.Int31n(n)` on the 31-bit value `v` it draws: a panic (`none`)
for `n ≤ 0`, else `v & (n-1)` for a power of two and `v % n` otherwise,
which are both `v % n`. -/
def Int31n (v : Nat) (n : Int) : Option Int :=
  if n ≤ 0 then none else some (((v % 2 ^ 31 : Nat) : Int) % n)

/-! ## main.go -/

/-- What a log line or a panic carries. -/
inductive Msg where
  | text (s : String)
  | net (n : IPNet)
  | addr (ip : IP)
  | error (e : GoError)
  | typed (typ : String) (e : GoError)
deriving DecidableEq, Repr

/-- The observable steps of a run. -/
inductive Event where
  | log (m : Msg)
  | draw (bound lower : Int)
  | call (ip : IP)
  | get (ip : IP)
deriving DecidableEq, Repr

/-- How far a run got: the loop is still going (the model ran out of fuel),
or the process panicked. -/
inductive Status where
  | running
  | panicked (m : Msg)
deriving DecidableEq, Repr

/-- A run of `main`: what it did, and how far it got. -/
structure Run where
  events : List Event
  status : Status
deriving DecidableEq, Repr

/-- The type assertion `err.(*net.OpError)` followed by `err.Op == "dial"`. -/
def isDialOpError : GoError → Bool
  | .opError op _ _ => op == "dial"
  | _ => false

/-- The branch `if err != nil { ... }` of `call` after `http.DefaultClient.Do`:
the value `call` returns (`none` is `nil`). -/
def doFailed (err : GoError) : Option GoError :=
  match err with
  | .urlError op _ inner =>
    if op = "Get" then
      if isDialOpError inner then none
      else if inner = .canceled ∨ inner = .deadlineExceeded then some inner
      else some err
    else some err
  | _ => some err

/-- Function `call(ctx, ip)` on the outcome the probe meets: the events and
the returned error. -/
def call (o : Outcome) (ip : IP) : List Event × Option GoError :=
  match o with
  | .requestError url inner => ([.call ip, .log (.addr ip)], some (.urlError "parse" url inner))
  | .doError err => ([.call ip, .log (.addr ip), .get ip], doFailed err)
  | .response copyErr => ([.call ip, .log (.addr ip), .get ip], copyErr)

/-- The four statements `ip[i] |= byte(lower >> (24 - 8*i))`; `none` is the
index-out-of-range panic of a slice shorter than four bytes. -/
def orOffset (ip : IP) (lower : Int) : Option IP :=
  match ip with
  | b0 :: b1 :: b2 :: b3 :: rest =>
    some ((b0 ||| toByte (lower >>> (24 : Nat))) :: (b1 ||| toByte (lower >>> (16 : Nat)))
      :: (b2 ||| toByte (lower >>> (8 : Nat))) :: (b3 ||| toByte lower) :: rest)
  | _ => none

/-- The check of `main` on the result of `call`,
`err != nil && err != context.DeadlineExceeded && err != context.Canceled`:
the value `log.Panicf("%T %v", err, err)` logs and panics with, or `none`
when the check lets the result pass. -/
def checkResult (err : Option GoError) : Option Msg :=
  match err with
  | none => none
  | some e =>
    if e ≠ .deadlineExceeded ∧ e ≠ .canceled then some (.typed e.typeName e) else none

/-- The body of the loop of `main`, iteration number `k`: its events and
the panic it ends in, if any. -/
def iteration (env : Env) (n : IPNet) (max : Int) (k : Nat) : List Event × Option Msg :=
  match Int31n (env.int31 k) (toInt32 max) with
  | none => ([], some (.text "invalid argument to Int31n"))
  | some lower =>
    match orOffset (IP.Mask n.IP n.Mask) lower with
    | none => ([.draw (toInt32 max) lower], some (.text "index out of range"))
    | some ip =>
      let r := call (env.outcome k ip) ip
      match checkResult r.2 with
      | none => (.draw (toInt32 max) lower :: r.1, none)
      | some m => (.draw (toInt32 max) lower :: (r.1 ++ [.log m]), some m)

/-- The loop `for { ... }` of `main` from iteration `k` on, for at most
`fuel` iterations. -/
def loop (env : Env) (n : IPNet) (max : Int) : Nat → Nat → Run
  | 0, _ => ⟨[], .running⟩
  | fuel + 1, k =>
    match iteration env n max k with
    | (evs, some m) => ⟨evs, .panicked m⟩
    | (evs, none) =>
      let r := loop env n max fuel (k + 1)
      ⟨evs ++ r.events, r.status⟩

/-- The statements `ones, bits := n.Mask.Size()` and
`max := 1 << (bits - ones)` of `main`. -/
def maxOf (n : IPNet) : Option Int :=
  shiftLeftInt 1 ((IPMask.Size n.Mask).2 - (IPMask.Size n.Mask).1)

/-- Function `main` with the flag `--network` set to `network`, its loop run
for at most `fuel` iterations. -/
def main (env : Env) (network : String) (fuel : Nat) : Run :=
  match ParseCIDR env.parseIPv6 network with
  | none =>
    ⟨[.log (.error (cidrParseError network))], .panicked (.error (cidrParseError network))⟩
  | some (_, n) =>
    if n.IP.length ≠ IPv4len then
      ⟨[.log (.net n), .log (.text "Only IPv4 supported")], .panicked (.text "Only IPv4 supported")⟩
    else
      match maxOf n with
      | none => ⟨[.log (.net n)], .panicked (.text "negative shift amount")⟩
      | some max =>
        let r := loop env n max fuel 0
        ⟨.log (.net n) :: r.events, r.status⟩

/-- The addresses `call` was invoked with, in order. -/
def candidates : List Event → List IP
  | [] => []
  | .call ip :: evs => ip :: candidates evs
  | _ :: evs => candidates evs

/-- The offsets drawn, in order. -/
def draws : List Event → List Int
  | [] => []
  | .draw _ lower :: evs => lower :: draws evs
  | _ :: evs => draws evs

/-- Big-endian value of a 4-byte address. -/
def be32 (ip : IP) : Nat :=
  match ip with
  | [b0, b1, b2, b3] => b0 * 2 ^ 24 + b1 * 2 ^ 16 + b2 * 2 ^ 8 + b3
  | _ => 0

/-! ## Vocabulary of the claims and sample inputs -/

/-- Number of host bits in byte `i` of a 4-byte mask with `p` leading ones. -/
def hostBits (p i : Nat) : Nat := 8 - min (p - 8 * i) 8

/-- The masked base of the network with address `a0.a1.a2.a3` and `p` leading
mask bits, byte by byte. -/
def maskedBase (a0 a1 a2 a3 p : Nat) : IP :=
  [a0 &&& (256 - 2 ^ hostBits p 0), a1 &&& (256 - 2 ^ hostBits p 1),
    a2 &&& (256 - 2 ^ hostBits p 2), a3 &&& (256 - 2 ^ hostBits p 3)]

/-- An IPv6 parser for the examples: it knows the loopback address `::1`
and nothing else. -/
def loopbackIPv6 : List Char → Option Addr16 := fun s =>
  if s = [Char.ofNat 58, Char.ofNat 58, Char.ofNat 49] then
    some ⟨[0, 0, 0, 0, 0, 0, 0, 0, 0, 0, 0, 0, 0, 0, 0, 1], rfl⟩
  else none

/-- The four bytes of the big-endian 32-bit encoding of `o`. -/
def be32Bytes (o : Nat) : List Nat :=
  [o / 2 ^ 24 % 256, o / 2 ^ 16 % 256, o / 2 ^ 8 % 256, o % 256]

/-- The candidate of iteration `k`, when the iteration gets as far as
building one. -/
def candidateAt (env : Env) (n : IPNet) (max : Int) (k : Nat) : Option IP :=
  (Int31n (env.int31 k) (toInt32 max)).bind (orOffset (IP.Mask n.IP n.Mask))

/-- The probe outcomes the specification calls expected, as the HTTP client
reports them. -/
inductive ExpectedOutcome where
  | dialFailure (url net : String) (err : GoError)
  | timeout (url : String)
  | cancelled (url : String)
  | success
deriving DecidableEq, Repr

/-- How the HTTP client reports an expected outcome: `Do` fails with a
`*url.Error` of the GET that wraps the `*net.OpError` of the dial, or
`context.DeadlineExceeded`, or `context.Canceled`; or a response arrives and
its body drains without error. -/
def ExpectedOutcome.outcome : ExpectedOutcome → Outcome
  | .dialFailure url net err => .doError (.urlError "Get" url (.opError "dial" net err))
  | .timeout url => .doError (.urlError "Get" url .deadlineExceeded)
  | .cancelled url => .doError (.urlError "Get" url .canceled)
  | .success => .response none

/-- What the specification says `call` returns for an expected outcome. -/
def ExpectedOutcome.returns : ExpectedOutcome → Option GoError
  | .dialFailure _ _ _ => none
  | .timeout _ => some .deadlineExceeded
  | .cancelled _ => some .canceled
  | .success => none

/-- An environment for the examples: the draws are 5, 305, 605, ...; probe
number 0 meets a refused connection, probe number 1 a timeout, probe
number 2 a cancellation, every later probe a response that drains cleanly. -/
def sampleEnv : Env where
  parseIPv6 := loopbackIPv6
  int31 := fun k => 5 + 300 * k
  outcome := fun k _ =>
    if k = 0 then
      .doError (.urlError "Get" "http://10.0.0.5"
        (.opError "dial" "tcp" (.other "*os.SyscallError" "connect: connection refused")))
    else if k = 1 then .doError (.urlError "Get" "http://10.0.1.49" .deadlineExceeded)
    else if k = 2 then .doError (.urlError "Get" "http://10.0.2.93" .canceled)
    else .response none

/-- A dial failure, in the shape `call` recognises: the `*url.Error` of the
GET wrapping a `*net.OpError` of the dial. -/
def isDialFailure : GoError → Bool
  | .urlError op _ (.opError op2 _ _) => op == "Get" && op2 == "dial"
  | _ => false

/-- A timeout: `context.DeadlineExceeded`, bare or wrapped in the
`*url.Error` of the GET. -/
def isTimeout : GoError → Bool
  | .deadlineExceeded => true
  | .urlError op _ .deadlineExceeded => op == "Get"
  | _ => false

/-- A cancellation: `context.Canceled`, bare or wrapped in the `*url.Error`
of the GET. -/
def isCancellation : GoError → Bool
  | .canceled => true
  | .urlError op _ .canceled => op == "Get"
  | _ => false

/-- An environment for the examples whose probe number 0 succeeds and whose
probe number 1 meets a `*url.Error` with an operation other than the GET. -/
def unexpectedEnv : Env where
  parseIPv6 := loopbackIPv6
  int31 := fun k => 5 + 300 * k
  outcome := fun k _ =>
    if k = 0 then .response none
    else .doError (.urlError "Post" "http://10.0.1.49" (.other "*errors.errorString" "EOF"))

/-- An environment for the examples in which every probe gets a response
whose body stalls until the one-second deadline: `io.Copy` returns
`context.DeadlineExceeded`. -/
def stalledBodyEnv : Env where
  parseIPv6 := loopbackIPv6
  int31 := fun _ => 1
  outcome := fun _ _ => .response (some .deadlineExceeded)

/-- An environment for the examples in which the body of the first
response breaks off: `io.Copy` returns `io.ErrUnexpectedEOF`. -/
def brokenBodyEnv : Env where
  parseIPv6 := loopbackIPv6
  int31 := fun _ => 1
  outcome := fun _ _ => .response (some (.other "*errors.errorString" "unexpected EOF"))

/-! ## Arithmetic of bytes, masks and parsing -/

set_option maxRecDepth 100000 in
theorem and_mask_byte : ∀ k, k ≤ 8 → ∀ a, a < 256 → a &&& (256 - 2 ^ k) = 2 ^ k * (a / 2 ^ k) := by
  decide

theorem or_host_bits (k q y : Nat) (hy : y < 2 ^ k) : 2 ^ k * q ||| y = 2 ^ k * q + y :=
  (Nat.mul_add_lt_is_or hy q).symm

theorem toByte_shift (o s : Nat) : toByte ((o : Int) >>> s) = o / 2 ^ s % 256 := by
  unfold toByte
  rw [Int.shiftRight_eq_div_pow]
  have h : ((o : Int) / ((2 ^ s : Nat) : Int) % 256) = ((o / 2 ^ s % 256 : Nat) : Int) := by
    norm_cast
  rw [h, Int.toNat_ofNat]

theorem toByte_cast (o : Nat) : toByte (o : Int) = o % 256 := by
  unfold toByte
  omega

theorem hostBits_le (p i : Nat) : hostBits p i ≤ 8 := by
  unfold hostBits
  omega

theorem cidrMask_shape : ∀ p, p ≤ 32 → CIDRMask (p : Nat) 32 =
    [256 - 2 ^ hostBits p 0, 256 - 2 ^ hostBits p 1, 256 - 2 ^ hostBits p 2,
      256 - 2 ^ hostBits p 3] := by
  decide

theorem size_cidrMask : ∀ p, p ≤ 32 → IPMask.Size (CIDRMask (p : Nat) 32) = ((p : Int), (32 : Int)) := by
  decide

theorem offset_byte_lt (p o i : Nat) (hp : p ≤ 32) (ho : o < 2 ^ (32 - p)) (hi : i < 4) :
    o / 2 ^ (24 - 8 * i) % 256 < 2 ^ hostBits p i := by
  unfold hostBits
  interval_cases p <;> interval_cases i <;> norm_num at ho ⊢ <;> omega

theorem byte_or (a y k : Nat) (ha : a < 256) (hk : k ≤ 8) (hy : y < 2 ^ k) :
    (a &&& (256 - 2 ^ k)) ||| y = (a &&& (256 - 2 ^ k)) + y
      ∧ ((a &&& (256 - 2 ^ k)) ||| y) < 256
      ∧ ((a &&& (256 - 2 ^ k)) ||| y) &&& (256 - 2 ^ k) = a &&& (256 - 2 ^ k) := by
  have hc : 2 ^ k * (a / 2 ^ k) + y < 256 := by
    interval_cases k <;> norm_num at hy ⊢ <;> omega
  have hq : (2 ^ k * (a / 2 ^ k) + y) / 2 ^ k = a / 2 ^ k := by
    interval_cases k <;> norm_num at hy ⊢ <;> omega
  rw [and_mask_byte k hk a ha, or_host_bits k _ y hy]
  refine ⟨rfl, hc, ?_⟩
  rw [and_mask_byte k hk _ hc, hq]

theorem zipWith_cidrMask (a0 a1 a2 a3 p : Nat) (hp : p ≤ 32) :
    List.zipWith (fun x m => x &&& m) [a0, a1, a2, a3] (CIDRMask (p : Nat) 32)
      = maskedBase a0 a1 a2 a3 p := by
  rw [cidrMask_shape p hp]
  rfl

theorem be32_maskedBase (a0 a1 a2 a3 p : Nat) (h0 : a0 < 256) (h1 : a1 < 256) (h2 : a2 < 256)
    (h3 : a3 < 256) (hp : p ≤ 32) :
    be32 (maskedBase a0 a1 a2 a3 p) = be32 [a0, a1, a2, a3] / 2 ^ (32 - p) * 2 ^ (32 - p) := by
  unfold maskedBase be32
  rw [and_mask_byte _ (hostBits_le p 0) a0 h0, and_mask_byte _ (hostBits_le p 1) a1 h1,
    and_mask_byte _ (hostBits_le p 2) a2 h2, and_mask_byte _ (hostBits_le p 3) a3 h3]
  unfold hostBits
  interval_cases p <;> norm_num <;> omega

theorem orOffset_maskedBase (a0 a1 a2 a3 p o : Nat) (h0 : a0 < 256) (h1 : a1 < 256)
    (h2 : a2 < 256) (h3 : a3 < 256) (hp : p ≤ 32) (ho : o < 2 ^ (32 - p)) :
    ∃ c0 c1 c2 c3, orOffset (maskedBase a0 a1 a2 a3 p) (o : Int) = some [c0, c1, c2, c3]
      ∧ c0 < 256 ∧ c1 < 256 ∧ c2 < 256 ∧ c3 < 256
      ∧ List.zipWith (fun x m => x &&& m) [c0, c1, c2, c3] (CIDRMask (p : Nat) 32)
          = maskedBase a0 a1 a2 a3 p
      ∧ be32 [c0, c1, c2, c3] = be32 (maskedBase a0 a1 a2 a3 p) + o := by
  have hb0 := byte_or a0 _ _ h0 (hostBits_le p 0) (offset_byte_lt p o 0 hp ho (by omega))
  have hb1 := byte_or a1 _ _ h1 (hostBits_le p 1) (offset_byte_lt p o 1 hp ho (by omega))
  have hb2 := byte_or a2 _ _ h2 (hostBits_le p 2) (offset_byte_lt p o 2 hp ho (by omega))
  have hb3 := byte_or a3 _ _ h3 (hostBits_le p 3) (offset_byte_lt p o 3 hp ho (by omega))
  have ho32 : o < 2 ^ 32 := lt_of_lt_of_le ho (Nat.pow_le_pow_right (by omega) (by omega))
  norm_num at hb0 hb1 hb2 hb3 ho32
  refine ⟨_, _, _, _, rfl, ?_, ?_, ?_, ?_, ?_, ?_⟩
  · rw [toByte_shift]; exact hb0.2.1
  · rw [toByte_shift]; exact hb1.2.1
  · rw [toByte_shift]; exact hb2.2.1
  · rw [toByte_cast]; exact hb3.2.1
  · rw [zipWith_cidrMask _ _ _ _ p hp, toByte_shift, toByte_shift, toByte_shift, toByte_cast]
    unfold maskedBase
    norm_num
    exact ⟨hb0.2.2, hb1.2.2, hb2.2.2, hb3.2.2⟩
  · rw [toByte_shift, toByte_shift, toByte_shift, toByte_cast]
    unfold maskedBase be32
    norm_num
    omega

theorem parseIPv4_form (s : List Char) (ip : IP) (h : parseIPv4 s = some ip) :
    ∃ a0 a1 a2 a3, a0 < 256 ∧ a1 < 256 ∧ a2 < 256 ∧ a3 < 256
      ∧ ip = v4InV6Lead ++ [a0, a1, a2, a3] := by
  unfold parseIPv4 at h
  split at h
  · rename_i a b c d _
    injection h with h
    exact ⟨a % 256, b % 256, c % 256, d % 256, Nat.mod_lt _ (by omega), Nat.mod_lt _ (by omega),
      Nat.mod_lt _ (by omega), Nat.mod_lt _ (by omega), h.symm⟩
  · exact absurd h (by simp)

theorem length_cidrMaskBytes (l n : Nat) : (cidrMaskBytes l n).length = l := by
  induction l generalizing n with
  | zero => rfl
  | succ l ih =>
    unfold cidrMaskBytes
    split <;> simp [ih]

theorem mask_v4 (a0 a1 a2 a3 : Nat) (m : IPMask) (hm : m.length = 4) :
    IP.Mask (v4InV6Lead ++ [a0, a1, a2, a3]) m
      = List.zipWith (fun x m => x &&& m) [a0, a1, a2, a3] m := by
  unfold IP.Mask
  simp [hm, IPv4len, IPv6len, v4InV6Lead]

theorem mask_4 (ip : IP) (m : IPMask) (hi : ip.length = 4) (hm : m.length = 4) :
    IP.Mask ip m = List.zipWith (fun x m => x &&& m) ip m := by
  unfold IP.Mask
  simp [hm, hi, IPv4len, IPv6len]

theorem length_mask_16 (ip : IP) (m : IPMask) (hi : ip.length = 16) (hm : m.length = 16) :
    (IP.Mask ip m).length = 16 := by
  unfold IP.Mask
  simp [hm, hi, IPv4len, IPv6len]

theorem length_cidrMask (p b : Nat) (hp : p ≤ b) (hb : b = 32 ∨ b = 128) :
    (CIDRMask (p : Nat) (b : Nat)).length = b / 8 := by
  unfold CIDRMask
  rw [if_neg (by rcases hb with hb | hb <;> subst hb <;> simp [IPv4len, IPv6len]),
    if_neg (by omega), length_cidrMaskBytes]
  simp

/-- Every network that `net.ParseCIDR` returns with a 4-byte address comes
from an IPv4 address `a0.a1.a2.a3` and a prefix length `p ≤ 32`. -/
theorem parseCIDR_ipv4 (pv6 : List Char → Option Addr16) (s : String) (ip : IP) (n : IPNet)
    (h : ParseCIDR pv6 s = some (ip, n)) (h4 : n.IP.length = IPv4len) :
    ∃ a0 a1 a2 a3 p, a0 < 256 ∧ a1 < 256 ∧ a2 < 256 ∧ a3 < 256 ∧ p ≤ 32
      ∧ ip = v4InV6Lead ++ [a0, a1, a2, a3]
      ∧ n.Mask = CIDRMask (p : Nat) 32 ∧ n.IP = maskedBase a0 a1 a2 a3 p := by
  unfold ParseCIDR at h
  simp only at h
  split at h
  · exact absurd h (by simp)
  · rename_i c mask hd
    cases hv4 : parseIPv4 (List.takeWhile (fun c => decide (c.toNat ≠ 47)) s.data) with
    | some ip4 =>
      rw [hv4] at h
      simp only at h
      split at h
      · exact absurd h (by simp)
      · rename_i hc
        injection h with h
        injection h with h1 h2
        obtain ⟨a0, a1, a2, a3, h0, h1', h2', h3, hip⟩ := parseIPv4_form _ _ hv4
        have hp : (dtoi mask).1 ≤ 32 := by
          simp [IPv4len] at hc
          omega
        refine ⟨a0, a1, a2, a3, (dtoi mask).1, h0, h1', h2', h3, hp, ?_, ?_, ?_⟩
        · rw [← h1, hip]
        · rw [← h2]
          simp [IPv4len]
        · rw [← h2]
          simp only [IPv4len]
          rw [hip]
          have hl := length_cidrMask (dtoi mask).1 32 hp (Or.inl rfl)
          rw [← zipWith_cidrMask a0 a1 a2 a3 _ hp]
          exact mask_v4 a0 a1 a2 a3 _ hl
    | none =>
      rw [hv4] at h
      simp only at h
      split at h
      · exact absurd h (by simp)
      · rename_i ip6 hip6
        split at h
        · exact absurd h (by simp)
        · rename_i hc
          injection h with h
          injection h with h1 h2
          exfalso
          cases hp6 : pv6 (List.takeWhile (fun c => decide (c.toNat ≠ 47)) s.data) with
          | none =>
            rw [hp6] at hip6
            simp at hip6
          | some a =>
            rw [hp6] at hip6
            simp at hip6
            have hp : (dtoi mask).1 ≤ 128 := by
              simp [IPv6len] at hc
              omega
            have hl := length_cidrMask (dtoi mask).1 128 hp (Or.inr rfl)
            have := length_mask_16 ip6 _ (by rw [← hip6]; exact a.property) hl
            rw [← h2] at h4
            simp only [IPv6len, IPv4len] at h4
            norm_num at this h4
            omega

theorem length_cidrMask32 : ∀ p, p ≤ 32 → (CIDRMask (p : Nat) 32).length = 4 := by
  decide

theorem mask_maskedBase (a0 a1 a2 a3 p : Nat) (hp : p ≤ 32) :
    IP.Mask (maskedBase a0 a1 a2 a3 p) (CIDRMask (p : Nat) 32) = maskedBase a0 a1 a2 a3 p := by
  rw [mask_4 (maskedBase a0 a1 a2 a3 p) _ rfl (length_cidrMask32 p hp), cidrMask_shape p hp]
  simp [maskedBase, Nat.and_assoc]

theorem maxOf_cidr : ∀ p, p ≤ 32 →
    shiftLeftInt 1 ((32 : Int) - ((p : Nat) : Int)) = some ((2 : Int) ^ (32 - p)) := by
  decide

theorem maskedBase_lt (a0 a1 a2 a3 p : Nat) (h0 : a0 < 256) (h1 : a1 < 256) (h2 : a2 < 256)
    (h3 : a3 < 256) : ∀ b ∈ maskedBase a0 a1 a2 a3 p, b < 256 := by
  intro b hb
  simp only [maskedBase, List.mem_cons, List.mem_singleton, List.not_mem_nil, or_false] at hb
  rcases hb with hb | hb | hb | hb <;> subst hb
  · exact lt_of_le_of_lt Nat.and_le_left h0
  · exact lt_of_le_of_lt Nat.and_le_left h1
  · exact lt_of_le_of_lt Nat.and_le_left h2
  · exact lt_of_le_of_lt Nat.and_le_left h3

/-- What `main` knows about a network it enters the loop with. -/
theorem net_facts (pv6 : List Char → Option Addr16) (s : String) (ip : IP) (n : IPNet)
    (h : ParseCIDR pv6 s = some (ip, n)) (h4 : n.IP.length = IPv4len) :
    ∃ a0 a1 a2 a3 p, a0 < 256 ∧ a1 < 256 ∧ a2 < 256 ∧ a3 < 256 ∧ p ≤ 32
      ∧ ip = IPv4 a0 a1 a2 a3
      ∧ n.Mask = CIDRMask (p : Nat) 32
      ∧ IP.Mask n.IP n.Mask = maskedBase a0 a1 a2 a3 p
      ∧ IPMask.Size n.Mask = ((p : Int), (32 : Int))
      ∧ maxOf n = some ((2 : Int) ^ (32 - p)) := by
  obtain ⟨a0, a1, a2, a3, p, h0, h1, h2, h3, hp, hip, hm, hb⟩ := parseCIDR_ipv4 pv6 s ip n h h4
  refine ⟨a0, a1, a2, a3, p, h0, h1, h2, h3, hp, ?_, hm, ?_, ?_, ?_⟩
  · rw [hip]
    simp [IPv4, Nat.mod_eq_of_lt, h0, h1, h2, h3]
  · rw [hb, hm]
    exact mask_maskedBase a0 a1 a2 a3 p hp
  · rw [hm]
    exact size_cidrMask p hp
  · unfold maxOf
    rw [hm, size_cidrMask p hp]
    exact maxOf_cidr p hp

/-- The candidate of an iteration that draws `lower` below `2^(32-p)`, for a
network that `main` enters the loop with. -/
theorem loop_candidate (pv6 : List Char → Option Addr16) (s : String) (ip : IP) (n : IPNet)
    (p : Nat) (lower : Int)
    (h : ParseCIDR pv6 s = some (ip, n)) (h4 : n.IP.length = IPv4len)
    (hsz : IPMask.Size n.Mask = ((p : Int), (32 : Int)))
    (h0 : 0 ≤ lower) (h1 : lower < 2 ^ (32 - p)) :
    ∃ a0 a1 a2 a3 o c0 c1 c2 c3 : Nat, a0 < 256 ∧ a1 < 256 ∧ a2 < 256 ∧ a3 < 256 ∧ p ≤ 32
      ∧ lower = (o : Int) ∧ o < 2 ^ (32 - p)
      ∧ n.Mask = CIDRMask (p : Nat) 32
      ∧ IP.Mask n.IP n.Mask = maskedBase a0 a1 a2 a3 p
      ∧ orOffset (maskedBase a0 a1 a2 a3 p) lower = some [c0, c1, c2, c3]
      ∧ c0 < 256 ∧ c1 < 256 ∧ c2 < 256 ∧ c3 < 256
      ∧ IP.Mask [c0, c1, c2, c3] n.Mask = maskedBase a0 a1 a2 a3 p
      ∧ be32 [c0, c1, c2, c3] = be32 (maskedBase a0 a1 a2 a3 p) + o := by
  obtain ⟨a0, a1, a2, a3, q, ha0, ha1, ha2, ha3, hq, _, hm, hb, hsz2, _⟩ :=
    net_facts pv6 s ip n h h4
  have hpq : p = q := by
    rw [hsz] at hsz2
    have := congrArg Prod.fst hsz2
    simp only at this
    exact_mod_cast this
  subst hpq
  obtain ⟨o, ho⟩ := Int.eq_ofNat_of_zero_le h0
  have ho1 : o < 2 ^ (32 - p) := by
    rw [ho] at h1
    exact_mod_cast h1
  obtain ⟨c0, c1, c2, c3, hc, hc0, hc1, hc2, hc3, hz, hbe⟩ :=
    orOffset_maskedBase a0 a1 a2 a3 p o ha0 ha1 ha2 ha3 hq ho1
  refine ⟨a0, a1, a2, a3, o, c0, c1, c2, c3, ha0, ha1, ha2, ha3, hq, ho, ho1, hm, hb, ?_,
    hc0, hc1, hc2, hc3, ?_, hbe⟩
  · rw [ho]
    exact hc
  · rw [hm, mask_4 [c0, c1, c2, c3] _ rfl (length_cidrMask32 p hq)]
    exact hz

/-- C3: for every string that `net.ParseCIDR` accepts as an IPv4 network
(address `a0.a1.a2.a3`, prefix length `p` between 0 and 32, read back by
`n.Mask.Size()`), the base address of the loop `n.IP.Mask(n.Mask)` is four
bytes whose `32-p` host bits are zero and whose top `p` bits are those of the
address, and `max` is `2^(32-p)`. -/
theorem base_cleared_and_max (pv6 : List Char → Option Addr16) (s : String) (ip : IP)
    (n : IPNet) (h : ParseCIDR pv6 s = some (ip, n)) (h4 : n.IP.length = IPv4len) :
    ∃ a0 a1 a2 a3 p : Nat, a0 < 256 ∧ a1 < 256 ∧ a2 < 256 ∧ a3 < 256 ∧ p ≤ 32
      ∧ ip = IPv4 a0 a1 a2 a3
      ∧ IPMask.Size n.Mask = ((p : Int), (32 : Int))
      ∧ (IP.Mask n.IP n.Mask).length = 4
      ∧ (∀ b ∈ IP.Mask n.IP n.Mask, b < 256)
      ∧ be32 (IP.Mask n.IP n.Mask) % 2 ^ (32 - p) = 0
      ∧ be32 (IP.Mask n.IP n.Mask) / 2 ^ (32 - p) = be32 [a0, a1, a2, a3] / 2 ^ (32 - p)
      ∧ maxOf n = some ((2 : Int) ^ (32 - p)) := by
  obtain ⟨a0, a1, a2, a3, p, h0, h1, h2, h3, hp, hip, _, hb, hsz, hmax⟩ :=
    net_facts pv6 s ip n h h4
  refine ⟨a0, a1, a2, a3, p, h0, h1, h2, h3, hp, hip, hsz, ?_, ?_, ?_, ?_, hmax⟩
  · rw [hb]
    rfl
  · rw [hb]
    exact maskedBase_lt a0 a1 a2 a3 p h0 h1 h2 h3
  · rw [hb, be32_maskedBase a0 a1 a2 a3 p h0 h1 h2 h3 hp]
    exact Nat.mul_mod_left _ _
  · rw [hb, be32_maskedBase a0 a1 a2 a3 p h0 h1 h2 h3 hp]
    exact Nat.mul_div_cancel _ (Nat.pos_pow_of_pos _ (by omega))

/-- Witness of C3 on `10.0.0.0/8` (`max` is 16777216) and on
`192.168.1.0/24` (`max` is 256). -/
theorem base_cleared_and_max_witness :
    (ParseCIDR loopbackIPv6 "10.0.0.0/8"
        = some (IPv4 10 0 0 0, ⟨[10, 0, 0, 0], [255, 0, 0, 0]⟩)
      ∧ maxOf ⟨[10, 0, 0, 0], [255, 0, 0, 0]⟩ = some 16777216
      ∧ maxOf ⟨[192, 168, 1, 0], [255, 255, 255, 0]⟩ = some 256)
    ∧ (∃ a0 a1 a2 a3 p : Nat, a0 < 256 ∧ a1 < 256 ∧ a2 < 256 ∧ a3 < 256 ∧ p ≤ 32
      ∧ IPv4 192 168 1 77 = IPv4 a0 a1 a2 a3
      ∧ IPMask.Size [255, 255, 255, 0] = ((p : Int), (32 : Int))
      ∧ (IP.Mask [192, 168, 1, 0] [255, 255, 255, 0]).length = 4
      ∧ (∀ b ∈ IP.Mask [192, 168, 1, 0] [255, 255, 255, 0], b < 256)
      ∧ be32 (IP.Mask [192, 168, 1, 0] [255, 255, 255, 0]) % 2 ^ (32 - p) = 0
      ∧ be32 (IP.Mask [192, 168, 1, 0] [255, 255, 255, 0]) / 2 ^ (32 - p)
          = be32 [a0, a1, a2, a3] / 2 ^ (32 - p)
      ∧ maxOf ⟨[192, 168, 1, 0], [255, 255, 255, 0]⟩ = some ((2 : Int) ^ (32 - p))) :=
  ⟨⟨by decide, by decide, by decide⟩,
    base_cleared_and_max loopbackIPv6 "192.168.1.77/24" (IPv4 192 168 1 77)
      ⟨[192, 168, 1, 0], [255, 255, 255, 0]⟩ (by decide) (by decide)⟩

/-- C1: for every network that `main` enters the loop with (prefix length
`p`) and every offset `0 ≤ lower < 2^(32-p)`, the loop builds a candidate,
four bytes, that lies inside the network: masked with the network mask it is
the masked base again, and as a big-endian number it is between the base and
the base plus `2^(32-p) - 1`. -/
theorem candidate_in_network (pv6 : List Char → Option Addr16) (s : String) (ip : IP)
    (n : IPNet) (p : Nat) (lower : Int)
    (h : ParseCIDR pv6 s = some (ip, n)) (h4 : n.IP.length = IPv4len)
    (hsz : IPMask.Size n.Mask = ((p : Int), (32 : Int)))
    (h0 : 0 ≤ lower) (h1 : lower < 2 ^ (32 - p)) :
    ∃ c, orOffset (IP.Mask n.IP n.Mask) lower = some c
      ∧ c.length = 4 ∧ (∀ b ∈ c, b < 256)
      ∧ IP.Mask c n.Mask = IP.Mask n.IP n.Mask
      ∧ be32 (IP.Mask n.IP n.Mask) ≤ be32 c
      ∧ be32 c ≤ be32 (IP.Mask n.IP n.Mask) + 2 ^ (32 - p) - 1 := by
  obtain ⟨a0, a1, a2, a3, o, c0, c1, c2, c3, _, _, _, _, _, _, ho, _, hb, hc, hc0, hc1, hc2, hc3,
    hz, hbe⟩ := loop_candidate pv6 s ip n p lower h h4 hsz h0 h1
  refine ⟨[c0, c1, c2, c3], ?_, rfl, ?_, ?_, ?_, ?_⟩
  · rw [hb]
    exact hc
  · intro b hb'
    simp only [List.mem_cons, List.mem_singleton, List.not_mem_nil, or_false] at hb'
    rcases hb' with hb' | hb' | hb' | hb' <;> subst hb' <;> assumption
  · rw [hb]
    exact hz
  · rw [hb, hbe]
    omega
  · rw [hb, hbe]
    omega

/-- Witness of C1 on `10.0.0.0/8`: offset 0 gives `10.0.0.0`, offset
16777215 gives `10.255.255.255`, and the candidate of the largest offset lies
between the two. -/
theorem candidate_in_network_witness :
    (ParseCIDR loopbackIPv6 "10.0.0.0/8"
        = some (IPv4 10 0 0 0, ⟨[10, 0, 0, 0], [255, 0, 0, 0]⟩)
      ∧ IPMask.Size [255, 0, 0, 0] = ((8 : Int), (32 : Int))
      ∧ (16777215 : Int) < 2 ^ (32 - 8)
      ∧ orOffset (IP.Mask [10, 0, 0, 0] [255, 0, 0, 0]) 0 = some [10, 0, 0, 0]
      ∧ orOffset (IP.Mask [10, 0, 0, 0] [255, 0, 0, 0]) 16777215 = some [10, 255, 255, 255])
    ∧ ∃ c, orOffset (IP.Mask [10, 0, 0, 0] [255, 0, 0, 0]) 16777215 = some c
      ∧ c.length = 4 ∧ (∀ b ∈ c, b < 256)
      ∧ IP.Mask c [255, 0, 0, 0] = IP.Mask [10, 0, 0, 0] [255, 0, 0, 0]
      ∧ be32 (IP.Mask [10, 0, 0, 0] [255, 0, 0, 0]) ≤ be32 c
      ∧ be32 c ≤ be32 (IP.Mask [10, 0, 0, 0] [255, 0, 0, 0]) + 2 ^ (32 - 8) - 1 :=
  ⟨⟨by decide, by decide, by decide, by decide, by decide⟩,
    candidate_in_network loopbackIPv6 "10.0.0.0/8" (IPv4 10 0 0 0)
      ⟨[10, 0, 0, 0], [255, 0, 0, 0]⟩ 8 16777215 (by decide) (by decide) (by decide)
      (by decide) (by decide)⟩

theorem orOffset_bytes (b0 b1 b2 b3 o : Nat) :
    orOffset [b0, b1, b2, b3] (o : Int)
      = some (List.zipWith (fun x y => x ||| y) [b0, b1, b2, b3] (be32Bytes o)) := by
  unfold orOffset be32Bytes
  rw [toByte_shift, toByte_shift, toByte_shift, toByte_cast]
  rfl

/-- C4: for every network that `main` enters the loop with (prefix length
`p`) and every offset `0 ≤ lower < 2^(32-p)`, the candidate is the masked
base with the big-endian bytes of the offset OR-ed in byte by byte; its
value is base plus offset, its low `32-p` bits are the offset and its top
`p` bits those of the base. -/
theorem candidate_is_base_or_offset (pv6 : List Char → Option Addr16) (s : String) (ip : IP)
    (n : IPNet) (p : Nat) (lower : Int)
    (h : ParseCIDR pv6 s = some (ip, n)) (h4 : n.IP.length = IPv4len)
    (hsz : IPMask.Size n.Mask = ((p : Int), (32 : Int)))
    (h0 : 0 ≤ lower) (h1 : lower < 2 ^ (32 - p)) :
    ∃ c, orOffset (IP.Mask n.IP n.Mask) lower = some c
      ∧ c = List.zipWith (fun x y => x ||| y) (IP.Mask n.IP n.Mask) (be32Bytes lower.toNat)
      ∧ be32 c = be32 (IP.Mask n.IP n.Mask) + lower.toNat
      ∧ be32 c % 2 ^ (32 - p) = lower.toNat
      ∧ be32 c / 2 ^ (32 - p) = be32 (IP.Mask n.IP n.Mask) / 2 ^ (32 - p) := by
  obtain ⟨a0, a1, a2, a3, o, c0, c1, c2, c3, ha0, ha1, ha2, ha3, hp, hl, ho, _, hb, hc, _, _, _,
    _, _, hbe⟩ := loop_candidate pv6 s ip n p lower h h4 hsz h0 h1
  have hpos : 0 < 2 ^ (32 - p) := Nat.pos_pow_of_pos _ (by omega)
  subst hl
  rw [hb]
  refine ⟨[c0, c1, c2, c3], hc, ?_, ?_, ?_, ?_⟩
  · have h2 := orOffset_bytes (a0 &&& (256 - 2 ^ hostBits p 0)) (a1 &&& (256 - 2 ^ hostBits p 1))
      (a2 &&& (256 - 2 ^ hostBits p 2)) (a3 &&& (256 - 2 ^ hostBits p 3)) o
    unfold maskedBase at hc ⊢
    rw [hc] at h2
    simpa using h2
  · simpa using hbe
  · rw [hbe, be32_maskedBase a0 a1 a2 a3 p ha0 ha1 ha2 ha3 hp, Nat.add_comm,
      Nat.add_mul_mod_self_right, Nat.mod_eq_of_lt ho]
    simp
  · rw [hbe, be32_maskedBase a0 a1 a2 a3 p ha0 ha1 ha2 ha3 hp, Nat.add_comm,
      Nat.add_mul_div_right _ _ hpos, Nat.div_eq_of_lt ho, Nat.mul_div_cancel _ hpos]
    simp

/-- Witness of C4: `192.168.1.0/24` with offset 5 yields `192.168.1.5`. -/
theorem candidate_is_base_or_offset_witness :
    (ParseCIDR loopbackIPv6 "192.168.1.0/24"
        = some (IPv4 192 168 1 0, ⟨[192, 168, 1, 0], [255, 255, 255, 0]⟩)
      ∧ IPMask.Size [255, 255, 255, 0] = ((24 : Int), (32 : Int))
      ∧ (5 : Int) < 2 ^ (32 - 24)
      ∧ orOffset (IP.Mask [192, 168, 1, 0] [255, 255, 255, 0]) 5 = some [192, 168, 1, 5])
    ∧ ∃ c, orOffset (IP.Mask [192, 168, 1, 0] [255, 255, 255, 0]) 5 = some c
      ∧ c = List.zipWith (fun x y => x ||| y) (IP.Mask [192, 168, 1, 0] [255, 255, 255, 0])
          (be32Bytes (5 : Int).toNat)
      ∧ be32 c = be32 (IP.Mask [192, 168, 1, 0] [255, 255, 255, 0]) + (5 : Int).toNat
      ∧ be32 c % 2 ^ (32 - 24) = (5 : Int).toNat
      ∧ be32 c / 2 ^ (32 - 24)
          = be32 (IP.Mask [192, 168, 1, 0] [255, 255, 255, 0]) / 2 ^ (32 - 24) :=
  ⟨⟨by decide, by decide, by decide, by decide⟩,
    candidate_is_base_or_offset loopbackIPv6 "192.168.1.0/24" (IPv4 192 168 1 0)
      ⟨[192, 168, 1, 0], [255, 255, 255, 0]⟩ 24 5 (by decide) (by decide) (by decide)
      (by decide) (by decide)⟩

theorem be32_inj (c0 c1 c2 c3 d0 d1 d2 d3 : Nat) (hc1 : c1 < 256)
    (hc2 : c2 < 256) (hc3 : c3 < 256) (hd1 : d1 < 256) (hd2 : d2 < 256)
    (hd3 : d3 < 256) (h : be32 [c0, c1, c2, c3] = be32 [d0, d1, d2, d3]) :
    [c0, c1, c2, c3] = [d0, d1, d2, d3] := by
  unfold be32 at h
  norm_num at h
  have e0 : c0 = d0 := by omega
  have e1 : c1 = d1 := by omega
  have e2 : c2 = d2 := by omega
  have e3 : c3 = d3 := by omega
  rw [e0, e1, e2, e3]

/-- C10 as stated fails for prefix length 0: the network `0.0.0.0/0` holds
`128.0.0.0`, and no offset that fits a non-negative `int32` yields it. -/
theorem top_half_unreachable_for_slash_zero :
    ParseCIDR loopbackIPv6 "0.0.0.0/0" = some (IPv4 0 0 0 0, ⟨[0, 0, 0, 0], [0, 0, 0, 0]⟩)
      ∧ IPMask.Size [0, 0, 0, 0] = ((0 : Int), (32 : Int))
      ∧ IP.Mask [128, 0, 0, 0] [0, 0, 0, 0] = IP.Mask [0, 0, 0, 0] [0, 0, 0, 0]
      ∧ ¬ ∃ lower : Int, 0 ≤ lower ∧ lower < 2 ^ (32 - 0) ∧ lower < 2 ^ 31
          ∧ orOffset (IP.Mask [0, 0, 0, 0] [0, 0, 0, 0]) lower = some [128, 0, 0, 0] := by
  refine ⟨by decide, by decide, by decide, ?_⟩
  rintro ⟨lower, h0, _, h31, hc⟩
  obtain ⟨o, ho⟩ := Int.eq_ofNat_of_zero_le h0
  subst ho
  have hm : IP.Mask [0, 0, 0, 0] [0, 0, 0, 0] = [0, 0, 0, 0] := by decide
  rw [hm, orOffset_bytes] at hc
  have ho : o < 2 ^ 31 := by exact_mod_cast h31
  simp [be32Bytes] at hc
  norm_num at ho
  omega

/-- C10, amended: for every network that `main` enters the loop with (prefix
length `p`), distinct offsets `0 ≤ lower < 2^(32-p)` give distinct
candidates; and when `p ≥ 1`, every 4-byte address of the network (masked
with the network mask it is the masked base) is the candidate of an offset
`0 ≤ lower < 2^(32-p)` that fits a non-negative `int32`, and of no other
offset in that range. -/
theorem offsets_biject_when_mask_nonempty (pv6 : List Char → Option Addr16) (s : String)
    (ip : IP) (n : IPNet) (p : Nat)
    (h : ParseCIDR pv6 s = some (ip, n)) (h4 : n.IP.length = IPv4len)
    (hsz : IPMask.Size n.Mask = ((p : Int), (32 : Int))) :
    (∀ l1 l2 : Int, 0 ≤ l1 → l1 < 2 ^ (32 - p) → 0 ≤ l2 → l2 < 2 ^ (32 - p) →
        orOffset (IP.Mask n.IP n.Mask) l1 = orOffset (IP.Mask n.IP n.Mask) l2 → l1 = l2)
      ∧ (1 ≤ p → ∀ c : IP, c.length = 4 → (∀ b ∈ c, b < 256) →
          IP.Mask c n.Mask = IP.Mask n.IP n.Mask →
          ∃ lower : Int, (0 ≤ lower ∧ lower < 2 ^ (32 - p) ∧ lower < 2 ^ 31
              ∧ orOffset (IP.Mask n.IP n.Mask) lower = some c)
            ∧ ∀ l2 : Int, 0 ≤ l2 → l2 < 2 ^ (32 - p) →
                orOffset (IP.Mask n.IP n.Mask) l2 = some c → l2 = lower) := by
  have hinj : ∀ l1 l2 : Int, 0 ≤ l1 → l1 < 2 ^ (32 - p) → 0 ≤ l2 → l2 < 2 ^ (32 - p) →
      orOffset (IP.Mask n.IP n.Mask) l1 = orOffset (IP.Mask n.IP n.Mask) l2 → l1 = l2 := by
    intro l1 l2 h10 h11 h20 h21 he
    obtain ⟨a0, a1, a2, a3, o1, c0, c1, c2, c3, _, _, _, _, _, hl1, _, _, hb1, hc1, _, _, _, _, _,
      hbe1⟩ := loop_candidate pv6 s ip n p l1 h h4 hsz h10 h11
    obtain ⟨b0, b1, b2, b3, o2, d0, d1, d2, d3, _, _, _, _, _, hl2, _, _, hb2, hc2, _, _, _, _, _,
      hbe2⟩ := loop_candidate pv6 s ip n p l2 h h4 hsz h20 h21
    rw [hb1] at he hb2
    rw [← hb2] at hc2 hbe2
    rw [hc1, hc2] at he
    injection he with he
    rw [he] at hbe1
    rw [hl1, hl2]
    have : o1 = o2 := by omega
    rw [this]
  refine ⟨hinj, ?_⟩
  intro hp1 c hlen hlt hmask
  obtain ⟨a0, a1, a2, a3, q, ha0, ha1, ha2, ha3, hq, _, hm, hb, hsz2, _⟩ :=
    net_facts pv6 s ip n h h4
  have hpq : p = q := by
    rw [hsz] at hsz2
    have := congrArg Prod.fst hsz2
    simp only at this
    exact_mod_cast this
  subst hpq
  rcases c with _ | ⟨c0, _ | ⟨c1, _ | ⟨c2, _ | ⟨c3, _ | ⟨c4, r⟩⟩⟩⟩⟩ <;> simp at hlen
  have hc0 : c0 < 256 := hlt c0 (by simp)
  have hc1 : c1 < 256 := hlt c1 (by simp)
  have hc2 : c2 < 256 := hlt c2 (by simp)
  have hc3 : c3 < 256 := hlt c3 (by simp)
  have hpos : 0 < 2 ^ (32 - p) := Nat.pos_pow_of_pos _ (by omega)
  rw [hb, hm, mask_4 [c0, c1, c2, c3] _ rfl (length_cidrMask32 p hq),
    zipWith_cidrMask c0 c1 c2 c3 p hq] at hmask
  have hbase := be32_maskedBase c0 c1 c2 c3 p hc0 hc1 hc2 hc3 hq
  rw [hmask] at hbase
  have ho : be32 [c0, c1, c2, c3] % 2 ^ (32 - p) < 2 ^ (32 - p) := Nat.mod_lt _ hpos
  obtain ⟨d0, d1, d2, d3, hd, _, hd1, hd2, hd3, _, hbe⟩ :=
    orOffset_maskedBase a0 a1 a2 a3 p _ ha0 ha1 ha2 ha3 hq ho
  have hval : be32 [d0, d1, d2, d3] = be32 [c0, c1, c2, c3] := by
    rw [hbe, hbase]
    exact Nat.div_add_mod' _ _
  have hdc := be32_inj d0 d1 d2 d3 c0 c1 c2 c3 hd1 hd2 hd3 hc1 hc2 hc3 hval
  have h31 : 2 ^ (32 - p) ≤ 2 ^ 31 := Nat.pow_le_pow_right (by omega) (by omega)
  have hfound : orOffset (IP.Mask n.IP n.Mask)
      ((be32 [c0, c1, c2, c3] % 2 ^ (32 - p) : Nat) : Int) = some [c0, c1, c2, c3] := by
    rw [hb, hd, hdc]
  have hlow : ((be32 [c0, c1, c2, c3] % 2 ^ (32 - p) : Nat) : Int) < 2 ^ (32 - p) := by
    exact_mod_cast ho
  refine ⟨((be32 [c0, c1, c2, c3] % 2 ^ (32 - p) : Nat) : Int),
    ⟨Int.ofNat_nonneg _, hlow, ?_, hfound⟩, ?_⟩
  · have : be32 [c0, c1, c2, c3] % 2 ^ (32 - p) < 2 ^ 31 := lt_of_lt_of_le ho h31
    exact_mod_cast this
  · intro l2 h20 h21 hl2
    exact hinj l2 _ h20 h21 (Int.ofNat_nonneg _) hlow (hl2.trans hfound.symm)

/-- Witness of the amended C10 on `10.0.0.0/8`. -/
theorem offsets_biject_when_mask_nonempty_witness :
    (ParseCIDR loopbackIPv6 "10.0.0.0/8" = some (IPv4 10 0 0 0, ⟨[10, 0, 0, 0], [255, 0, 0, 0]⟩)
      ∧ IPMask.Size [255, 0, 0, 0] = ((8 : Int), (32 : Int)))
    ∧ ((∀ l1 l2 : Int, 0 ≤ l1 → l1 < 2 ^ (32 - 8) → 0 ≤ l2 → l2 < 2 ^ (32 - 8) →
        orOffset (IP.Mask [10, 0, 0, 0] [255, 0, 0, 0]) l1
          = orOffset (IP.Mask [10, 0, 0, 0] [255, 0, 0, 0]) l2 → l1 = l2)
      ∧ (1 ≤ 8 → ∀ c : IP, c.length = 4 → (∀ b ∈ c, b < 256) →
          IP.Mask c [255, 0, 0, 0] = IP.Mask [10, 0, 0, 0] [255, 0, 0, 0] →
          ∃ lower : Int, (0 ≤ lower ∧ lower < 2 ^ (32 - 8) ∧ lower < 2 ^ 31
              ∧ orOffset (IP.Mask [10, 0, 0, 0] [255, 0, 0, 0]) lower = some c)
            ∧ ∀ l2 : Int, 0 ≤ l2 → l2 < 2 ^ (32 - 8) →
                orOffset (IP.Mask [10, 0, 0, 0] [255, 0, 0, 0]) l2 = some c → l2 = lower)) :=
  ⟨⟨by decide, by decide⟩,
    offsets_biject_when_mask_nonempty loopbackIPv6 "10.0.0.0/8" (IPv4 10 0 0 0)
      ⟨[10, 0, 0, 0], [255, 0, 0, 0]⟩ 8 (by decide) (by decide) (by decide)⟩

/-- The IPv6 parser plays no part when the address parses as IPv4. -/
theorem parseCIDR_indep (pv6 pv6' : List Char → Option Addr16) (s : String)
    (h : (parseIPv4 (s.data.takeWhile (fun c => c.toNat ≠ 47))).isSome = true) :
    ParseCIDR pv6 s = ParseCIDR pv6' s := by
  unfold ParseCIDR
  simp only
  split
  · rfl
  · cases hv : parseIPv4 (s.data.takeWhile (fun c => c.toNat ≠ 47)) with
    | none => rw [hv] at h; exact absurd h (by simp)
    | some ip4 => rfl

theorem parseCIDR_slash0 (pv6 : List Char → Option Addr16) :
    ParseCIDR pv6 "0.0.0.0/0" = some (IPv4 0 0 0 0, ⟨[0, 0, 0, 0], [0, 0, 0, 0]⟩) :=
  (parseCIDR_indep pv6 loopbackIPv6 _ (by decide)).trans (by decide)

theorem parseCIDR_slash1 (pv6 : List Char → Option Addr16) :
    ParseCIDR pv6 "128.0.0.0/1" = some (IPv4 128 0 0 0, ⟨[128, 0, 0, 0], [128, 0, 0, 0]⟩) :=
  (parseCIDR_indep pv6 loopbackIPv6 _ (by decide)).trans (by decide)

/-- C2 on the code: the bound `int32(max)` that `main` hands to
`rand.Int31n` equals `2^(32-p)` exactly for the prefix lengths 2 to 32; for
`p = 0` it is 0 and for `p = 1` it is `-2^31`.  With `--network 0.0.0.0/0`
or `--network 128.0.0.0/1` the first iteration panics inside `rand.Int31n`
before any probe. -/
theorem bound_wraps_for_slash_zero_and_one :
    (∀ p : Fin 33, (toInt32 ((2 : Int) ^ (32 - p.val)) = (2 : Int) ^ (32 - p.val) ↔ 2 ≤ p.val))
      ∧ maxOf ⟨[0, 0, 0, 0], [0, 0, 0, 0]⟩ = some ((2 : Int) ^ 32)
      ∧ toInt32 ((2 : Int) ^ 32) = 0
      ∧ maxOf ⟨[128, 0, 0, 0], [128, 0, 0, 0]⟩ = some ((2 : Int) ^ 31)
      ∧ toInt32 ((2 : Int) ^ 31) = -(2 : Int) ^ 31
      ∧ (∀ (env : Env) (fuel : Nat), main env "0.0.0.0/0" (fuel + 1)
          = ⟨[.log (.net ⟨[0, 0, 0, 0], [0, 0, 0, 0]⟩)],
              .panicked (.text "invalid argument to Int31n")⟩)
      ∧ (∀ (env : Env) (fuel : Nat), main env "128.0.0.0/1" (fuel + 1)
          = ⟨[.log (.net ⟨[128, 0, 0, 0], [128, 0, 0, 0]⟩)],
              .panicked (.text "invalid argument to Int31n")⟩) := by
  refine ⟨by decide, by decide, by decide, by decide, by decide, ?_, ?_⟩
  · intro env fuel
    unfold main
    rw [parseCIDR_slash0]
    rfl
  · intro env fuel
    unfold main
    rw [parseCIDR_slash1]
    rfl

theorem candidates_append (xs ys : List Event) :
    candidates (xs ++ ys) = candidates xs ++ candidates ys := by
  induction xs with
  | nil => rfl
  | cons x xs ih => cases x <;> simp [candidates, ih]

theorem candidates_call (o : Outcome) (ip : IP) : candidates (call o ip).1 = [ip] := by
  cases o <;> rfl

/-- An iteration that draws `lower` and builds `ip` is the probe of `ip`
followed by the check of `main`. -/
theorem iteration_eq (env : Env) (n : IPNet) (max : Int) (k : Nat) (lower : Int) (ip : IP)
    (hd : Int31n (env.int31 k) (toInt32 max) = some lower)
    (hip : orOffset (IP.Mask n.IP n.Mask) lower = some ip) :
    iteration env n max k =
      match checkResult (call (env.outcome k ip) ip).2 with
      | none => (.draw (toInt32 max) lower :: (call (env.outcome k ip) ip).1, none)
      | some m =>
        (.draw (toInt32 max) lower :: ((call (env.outcome k ip) ip).1 ++ [.log m]), some m) := by
  unfold iteration
  rw [hd]
  simp only
  rw [hip]

theorem iteration_candidates (env : Env) (n : IPNet) (max : Int) (k : Nat) :
    candidates (iteration env n max k).1 = (candidateAt env n max k).toList
      ∧ (candidateAt env n max k = none → (iteration env n max k).2 ≠ none) := by
  unfold candidateAt
  cases hd : Int31n (env.int31 k) (toInt32 max) with
  | none =>
    unfold iteration
    rw [hd]
    simp [candidates]
  | some lower =>
    cases hip : orOffset (IP.Mask n.IP n.Mask) lower with
    | none =>
      unfold iteration
      rw [hd]
      simp only
      rw [hip]
      simp [candidates, hip]
    | some ip =>
      rw [iteration_eq env n max k lower ip hd hip]
      cases hc : checkResult (call (env.outcome k ip) ip).2 with
      | none => simp [candidates, candidates_call, hip]
      | some m => simp [candidates, candidates_append, candidates_call, hip]

theorem loop_succ_panic (env : Env) (n : IPNet) (max : Int) (fuel k : Nat) (m : Msg)
    (h : (iteration env n max k).2 = some m) :
    loop env n max (fuel + 1) k = ⟨(iteration env n max k).1, .panicked m⟩ := by
  rw [loop]
  cases hi : iteration env n max k with
  | mk evs r =>
    rw [hi] at h
    simp only at h
    subst h
    rfl

theorem loop_succ_next (env : Env) (n : IPNet) (max : Int) (fuel k : Nat)
    (h : (iteration env n max k).2 = none) :
    loop env n max (fuel + 1) k =
      ⟨(iteration env n max k).1 ++ (loop env n max fuel (k + 1)).events,
        (loop env n max fuel (k + 1)).status⟩ := by
  rw [loop]
  cases hi : iteration env n max k with
  | mk evs r =>
    rw [hi] at h
    simp only at h
    subst h
    rfl

/-- The candidate number `j` of the loop started at iteration `k` is the
candidate of iteration `k + j`. -/
theorem loop_candidates (env : Env) (n : IPNet) (max : Int) (fuel : Nat) :
    ∀ k j c, (candidates (loop env n max fuel k).events)[j]? = some c →
      candidateAt env n max (k + j) = some c := by
  induction fuel with
  | zero =>
    intro k j c h
    simp [loop, candidates] at h
  | succ fuel ih =>
    intro k j c h
    have hic := iteration_candidates env n max k
    cases hr : (iteration env n max k).2 with
    | some m =>
      rw [loop_succ_panic env n max fuel k m hr] at h
      simp only at h
      rw [hic.1] at h
      cases hca : candidateAt env n max k with
      | none => rw [hca] at h; simp at h
      | some c' =>
        rw [hca] at h
        cases j with
        | zero =>
          simp at h
          subst h
          simpa using hca
        | succ j => simp at h
    | none =>
      rw [loop_succ_next env n max fuel k hr] at h
      simp only at h
      rw [candidates_append, hic.1] at h
      cases hca : candidateAt env n max k with
      | none => exact absurd hr (hic.2 hca)
      | some c' =>
        rw [hca] at h
        cases j with
        | zero =>
          simp at h
          subst h
          simpa using hca
        | succ j =>
          simp only [Option.toList, List.singleton_append, List.getElem?_cons_succ] at h
          have := ih (k + 1) j c h
          rw [show k + (j + 1) = k + 1 + j by omega]
          exact this

theorem loop_running_length (env : Env) (n : IPNet) (max : Int) (fuel : Nat) :
    ∀ k, (loop env n max fuel k).status = .running →
      (candidates (loop env n max fuel k).events).length = fuel := by
  induction fuel with
  | zero =>
    intro k _
    rfl
  | succ fuel ih =>
    intro k h
    have hic := iteration_candidates env n max k
    cases hr : (iteration env n max k).2 with
    | some m =>
      rw [loop_succ_panic env n max fuel k m hr] at h
      simp at h
    | none =>
      rw [loop_succ_next env n max fuel k hr] at h ⊢
      simp only at h ⊢
      rw [candidates_append, hic.1, List.length_append, ih (k + 1) h]
      cases hca : candidateAt env n max k with
      | none => exact absurd hr (hic.2 hca)
      | some c' => simp; omega

/-- C5: in every iteration that reaches the probe, when the HTTP client
reports a dial failure, a deadline-exceeded timeout or a cancellation, or a
response whose body drains without error, `call` returns `nil`,
`context.DeadlineExceeded`, `context.Canceled` and `nil` respectively, the
check of `main` lets the result pass, the iteration does not panic and the
loop goes on with the next iteration. -/
theorem expected_outcomes_nonfatal (env : Env) (n : IPNet) (max : Int) (k fuel : Nat)
    (lower : Int) (ip : IP) (x : ExpectedOutcome)
    (hd : Int31n (env.int31 k) (toInt32 max) = some lower)
    (hip : orOffset (IP.Mask n.IP n.Mask) lower = some ip)
    (ho : env.outcome k ip = x.outcome) :
    (call (env.outcome k ip) ip).2 = x.returns
      ∧ checkResult (call (env.outcome k ip) ip).2 = none
      ∧ (iteration env n max k).2 = none
      ∧ loop env n max (fuel + 1) k =
          ⟨(iteration env n max k).1 ++ (loop env n max fuel (k + 1)).events,
            (loop env n max fuel (k + 1)).status⟩ := by
  have hret : (call (env.outcome k ip) ip).2 = x.returns := by
    rw [ho]
    cases x <;> rfl
  have hchk : checkResult (call (env.outcome k ip) ip).2 = none := by
    rw [hret]
    cases x <;> rfl
  have hit : (iteration env n max k).2 = none := by
    rw [iteration_eq env n max k lower ip hd hip, hchk]
  exact ⟨hret, hchk, hit, loop_succ_next env n max fuel k hit⟩

/-- Witness of C5: the four expected outcomes, met by the first four
iterations of a run on `10.0.0.0/8`; the theorem applied to the refused
connection of iteration 0 and to the timeout of iteration 1. -/
theorem expected_outcomes_nonfatal_witness :
    (Int31n (sampleEnv.int31 0) (toInt32 16777216) = some 5
      ∧ orOffset (IP.Mask [10, 0, 0, 0] [255, 0, 0, 0]) 5 = some [10, 0, 0, 5]
      ∧ sampleEnv.outcome 0 [10, 0, 0, 5]
        = (ExpectedOutcome.dialFailure "http://10.0.0.5" "tcp"
            (.other "*os.SyscallError" "connect: connection refused")).outcome
      ∧ Int31n (sampleEnv.int31 1) (toInt32 16777216) = some 305
      ∧ orOffset (IP.Mask [10, 0, 0, 0] [255, 0, 0, 0]) 305 = some [10, 0, 1, 49]
      ∧ sampleEnv.outcome 1 [10, 0, 1, 49] = (ExpectedOutcome.timeout "http://10.0.1.49").outcome)
    ∧ ((call (sampleEnv.outcome 0 [10, 0, 0, 5]) [10, 0, 0, 5]).2 = none
      ∧ checkResult (call (sampleEnv.outcome 0 [10, 0, 0, 5]) [10, 0, 0, 5]).2 = none
      ∧ (iteration sampleEnv ⟨[10, 0, 0, 0], [255, 0, 0, 0]⟩ 16777216 0).2 = none
      ∧ loop sampleEnv ⟨[10, 0, 0, 0], [255, 0, 0, 0]⟩ 16777216 (3 + 1) 0 =
          ⟨(iteration sampleEnv ⟨[10, 0, 0, 0], [255, 0, 0, 0]⟩ 16777216 0).1
              ++ (loop sampleEnv ⟨[10, 0, 0, 0], [255, 0, 0, 0]⟩ 16777216 3 (0 + 1)).events,
            (loop sampleEnv ⟨[10, 0, 0, 0], [255, 0, 0, 0]⟩ 16777216 3 (0 + 1)).status⟩)
    ∧ ((call (sampleEnv.outcome 1 [10, 0, 1, 49]) [10, 0, 1, 49]).2 = some .deadlineExceeded
      ∧ checkResult (call (sampleEnv.outcome 1 [10, 0, 1, 49]) [10, 0, 1, 49]).2 = none
      ∧ (iteration sampleEnv ⟨[10, 0, 0, 0], [255, 0, 0, 0]⟩ 16777216 1).2 = none
      ∧ loop sampleEnv ⟨[10, 0, 0, 0], [255, 0, 0, 0]⟩ 16777216 (2 + 1) 1 =
          ⟨(iteration sampleEnv ⟨[10, 0, 0, 0], [255, 0, 0, 0]⟩ 16777216 1).1
              ++ (loop sampleEnv ⟨[10, 0, 0, 0], [255, 0, 0, 0]⟩ 16777216 2 (1 + 1)).events,
            (loop sampleEnv ⟨[10, 0, 0, 0], [255, 0, 0, 0]⟩ 16777216 2 (1 + 1)).status⟩)
    ∧ (main sampleEnv "10.0.0.0/8" 4).status = .running
    ∧ candidates (main sampleEnv "10.0.0.0/8" 4).events
        = [[10, 0, 0, 5], [10, 0, 1, 49], [10, 0, 2, 93], [10, 0, 3, 137]] :=
  ⟨by decide,
    expected_outcomes_nonfatal sampleEnv ⟨[10, 0, 0, 0], [255, 0, 0, 0]⟩ 16777216 0 3 5
      [10, 0, 0, 5]
      (.dialFailure "http://10.0.0.5" "tcp" (.other "*os.SyscallError" "connect: connection refused"))
      (by decide) (by decide) (by decide),
    expected_outcomes_nonfatal sampleEnv ⟨[10, 0, 0, 0], [255, 0, 0, 0]⟩ 16777216 1 2 305
      [10, 0, 1, 49] (.timeout "http://10.0.1.49") (by decide) (by decide) (by decide),
    by decide, by decide⟩

theorem doFailed_unexpected (e : GoError) (h1 : isDialFailure e = false)
    (h2 : isTimeout e = false) (h3 : isCancellation e = false) :
    doFailed e = some e ∧ e ≠ .deadlineExceeded ∧ e ≠ .canceled := by
  refine ⟨?_, ?_, ?_⟩
  · cases e with
    | urlError op url inner =>
      unfold doFailed
      by_cases hop : op = "Get"
      · subst hop
        cases inner with
        | opError op2 net err =>
          have : op2 ≠ "dial" := by
            intro hh
            subst hh
            simp [isDialFailure] at h1
          simp [isDialOpError, this]
        | canceled => simp [isCancellation] at h3
        | deadlineExceeded => simp [isTimeout] at h2
        | urlError _ _ _ => simp [isDialOpError]
        | other _ _ => simp [isDialOpError]
      · simp [hop]
    | _ => rfl
  · intro hh
    subst hh
    simp [isTimeout] at h2
  · intro hh
    subst hh
    simp [isCancellation] at h3

/-- C6: in every iteration that reaches the probe, when request
construction fails, or the HTTP client returns an error that is not a dial
failure, not a timeout and not a cancellation, `call` returns that error
unchanged, `main` logs its type and value and panics with them in the same
iteration, and the run ends there: the probe of this iteration is the last
one. -/
theorem unexpected_errors_fatal (env : Env) (n : IPNet) (max : Int) (k fuel : Nat)
    (lower : Int) (ip : IP) (e : GoError)
    (hd : Int31n (env.int31 k) (toInt32 max) = some lower)
    (hip : orOffset (IP.Mask n.IP n.Mask) lower = some ip)
    (ho : (∃ url inner, env.outcome k ip = .requestError url inner
            ∧ e = .urlError "parse" url inner)
          ∨ (env.outcome k ip = .doError e ∧ isDialFailure e = false ∧ isTimeout e = false
            ∧ isCancellation e = false)) :
    (call (env.outcome k ip) ip).2 = some e
      ∧ (iteration env n max k).2 = some (.typed e.typeName e)
      ∧ (iteration env n max k).1.getLast? = some (.log (.typed e.typeName e))
      ∧ loop env n max (fuel + 1) k
          = ⟨(iteration env n max k).1, .panicked (.typed e.typeName e)⟩
      ∧ candidates (loop env n max (fuel + 1) k).events = [ip] := by
  have hret : (call (env.outcome k ip) ip).2 = some e
      ∧ e ≠ .deadlineExceeded ∧ e ≠ .canceled := by
    rcases ho with ⟨url, inner, ho, he⟩ | ⟨ho, h1, h2, h3⟩
    · rw [ho, he]
      exact ⟨rfl, by simp, by simp⟩
    · rw [ho]
      exact doFailed_unexpected e h1 h2 h3
  have hchk : checkResult (call (env.outcome k ip) ip).2 = some (.typed e.typeName e) := by
    rw [hret.1]
    simp [checkResult, hret.2.1, hret.2.2]
  have hit := iteration_eq env n max k lower ip hd hip
  rw [hchk] at hit
  simp only at hit
  have hpanic : (iteration env n max k).2 = some (.typed e.typeName e) := by rw [hit]
  have hloop := loop_succ_panic env n max fuel k _ hpanic
  refine ⟨hret.1, hpanic, ?_, hloop, ?_⟩
  · rw [hit]
    simp only
    rw [← List.cons_append, List.getLast?_concat]
  · rw [hloop]
    simp only
    rw [(iteration_candidates env n max k).1]
    unfold candidateAt
    rw [hd]
    simp [hip]

/-- Witness of C6: a `*url.Error` whose operation is not the GET ends the
run in the second iteration; a `*url.Error` of the GET around a
`*net.OpError` that is not a dial, an error of another type and a failed
request construction are returned unchanged and fail the check of `main` as
well. -/
theorem unexpected_errors_fatal_witness :
    (Int31n (unexpectedEnv.int31 1) (toInt32 16777216) = some 305
      ∧ orOffset (IP.Mask [10, 0, 0, 0] [255, 0, 0, 0]) 305 = some [10, 0, 1, 49]
      ∧ unexpectedEnv.outcome 1 [10, 0, 1, 49]
        = .doError (.urlError "Post" "http://10.0.1.49" (.other "*errors.errorString" "EOF")))
    ∧ ((call (unexpectedEnv.outcome 1 [10, 0, 1, 49]) [10, 0, 1, 49]).2
        = some (.urlError "Post" "http://10.0.1.49" (.other "*errors.errorString" "EOF"))
      ∧ (iteration unexpectedEnv ⟨[10, 0, 0, 0], [255, 0, 0, 0]⟩ 16777216 1).2
        = some (.typed "*url.Error"
            (.urlError "Post" "http://10.0.1.49" (.other "*errors.errorString" "EOF")))
      ∧ (iteration unexpectedEnv ⟨[10, 0, 0, 0], [255, 0, 0, 0]⟩ 16777216 1).1.getLast?
        = some (.log (.typed "*url.Error"
            (.urlError "Post" "http://10.0.1.49" (.other "*errors.errorString" "EOF"))))
      ∧ loop unexpectedEnv ⟨[10, 0, 0, 0], [255, 0, 0, 0]⟩ 16777216 (7 + 1) 1
        = ⟨(iteration unexpectedEnv ⟨[10, 0, 0, 0], [255, 0, 0, 0]⟩ 16777216 1).1,
            .panicked (.typed "*url.Error"
              (.urlError "Post" "http://10.0.1.49" (.other "*errors.errorString" "EOF")))⟩
      ∧ candidates (loop unexpectedEnv ⟨[10, 0, 0, 0], [255, 0, 0, 0]⟩ 16777216 (7 + 1) 1).events
        = [[10, 0, 1, 49]])
    ∧ candidates (main unexpectedEnv "10.0.0.0/8" 9).events = [[10, 0, 0, 5], [10, 0, 1, 49]]
    ∧ (main unexpectedEnv "10.0.0.0/8" 9).status
        = .panicked (.typed "*url.Error"
            (.urlError "Post" "http://10.0.1.49" (.other "*errors.errorString" "EOF")))
    ∧ checkResult (doFailed
          (.urlError "Get" "u" (.opError "read" "tcp" (.other "*errors.errorString" "EOF"))))
        = some (.typed "*url.Error"
            (.urlError "Get" "u" (.opError "read" "tcp" (.other "*errors.errorString" "EOF"))))
    ∧ checkResult (doFailed (.other "*errors.errorString" "EOF"))
        = some (.typed "*errors.errorString" (.other "*errors.errorString" "EOF"))
    ∧ checkResult (call (.requestError "http://?" (.other "*errors.errorString" "invalid host"))
          [10, 0, 1, 49]).2
        = some (.typed "*url.Error"
            (.urlError "parse" "http://?" (.other "*errors.errorString" "invalid host"))) :=
  ⟨by decide,
    unexpected_errors_fatal unexpectedEnv ⟨[10, 0, 0, 0], [255, 0, 0, 0]⟩ 16777216 1 7 305
      [10, 0, 1, 49] (.urlError "Post" "http://10.0.1.49" (.other "*errors.errorString" "EOF"))
      (by decide) (by decide) (Or.inr (by decide)),
    by decide, by decide, by decide, by decide, by decide⟩

/-- C7 as stated fails: when draining the body ends in
`context.DeadlineExceeded`, `call` returns it and the check of `main` lets it
pass; the run on `10.0.0.0/8` is still going after two such probes. -/
theorem drain_deadline_not_fatal :
    (call (stalledBodyEnv.outcome 0 [10, 0, 0, 1]) [10, 0, 0, 1]).2 = some .deadlineExceeded
      ∧ (iteration stalledBodyEnv ⟨[10, 0, 0, 0], [255, 0, 0, 0]⟩ 16777216 0).2 = none
      ∧ (main stalledBodyEnv "10.0.0.0/8" 2).status = .running
      ∧ candidates (main stalledBodyEnv "10.0.0.0/8" 2).events = [[10, 0, 0, 1], [10, 0, 0, 1]] := by
  decide

/-- C7, amended: in every iteration that reaches the probe and gets a
response, `call` returns the error of `io.Copy` unchanged; when that error is
neither `context.DeadlineExceeded` nor `context.Canceled`, `main` logs its
type and value and panics with them in that iteration, which ends the run;
when it is one of the two, the iteration does not panic and the loop goes
on. -/
theorem drain_errors_fatal_unless_context (env : Env) (n : IPNet) (max : Int) (k fuel : Nat)
    (lower : Int) (ip : IP) (e : GoError)
    (hd : Int31n (env.int31 k) (toInt32 max) = some lower)
    (hip : orOffset (IP.Mask n.IP n.Mask) lower = some ip)
    (ho : env.outcome k ip = .response (some e)) :
    (call (env.outcome k ip) ip).2 = some e
      ∧ ((e ≠ .deadlineExceeded ∧ e ≠ .canceled) →
          (iteration env n max k).2 = some (.typed e.typeName e)
          ∧ loop env n max (fuel + 1) k
              = ⟨(iteration env n max k).1, .panicked (.typed e.typeName e)⟩)
      ∧ ((e = .deadlineExceeded ∨ e = .canceled) →
          (iteration env n max k).2 = none
          ∧ loop env n max (fuel + 1) k =
              ⟨(iteration env n max k).1 ++ (loop env n max fuel (k + 1)).events,
                (loop env n max fuel (k + 1)).status⟩) := by
  have hret : (call (env.outcome k ip) ip).2 = some e := by
    rw [ho]
    rfl
  have hit := iteration_eq env n max k lower ip hd hip
  rw [hret] at hit
  refine ⟨hret, ?_, ?_⟩
  · intro hne
    have hchk : checkResult (some e) = some (.typed e.typeName e) := by
      simp [checkResult, hne.1, hne.2]
    rw [hchk] at hit
    have hpanic : (iteration env n max k).2 = some (.typed e.typeName e) := by rw [hit]
    exact ⟨hpanic, loop_succ_panic env n max fuel k _ hpanic⟩
  · intro heq
    have hchk : checkResult (some e) = none := by
      rcases heq with heq | heq <;> subst heq <;> rfl
    rw [hchk] at hit
    have hnext : (iteration env n max k).2 = none := by rw [hit]
    exact ⟨hnext, loop_succ_next env n max fuel k hnext⟩

/-- Witness of the amended C7: a body that breaks off with
`io.ErrUnexpectedEOF` ends the run in the first iteration. -/
theorem drain_errors_fatal_unless_context_witness :
    (Int31n (brokenBodyEnv.int31 0) (toInt32 16777216) = some 1
      ∧ orOffset (IP.Mask [10, 0, 0, 0] [255, 0, 0, 0]) 1 = some [10, 0, 0, 1]
      ∧ brokenBodyEnv.outcome 0 [10, 0, 0, 1]
        = .response (some (.other "*errors.errorString" "unexpected EOF")))
    ∧ ((call (brokenBodyEnv.outcome 0 [10, 0, 0, 1]) [10, 0, 0, 1]).2
        = some (.other "*errors.errorString" "unexpected EOF")
      ∧ (((GoError.other "*errors.errorString" "unexpected EOF") ≠ .deadlineExceeded
          ∧ (GoError.other "*errors.errorString" "unexpected EOF") ≠ .canceled) →
          (iteration brokenBodyEnv ⟨[10, 0, 0, 0], [255, 0, 0, 0]⟩ 16777216 0).2
            = some (.typed (GoError.other "*errors.errorString" "unexpected EOF").typeName
                (.other "*errors.errorString" "unexpected EOF"))
          ∧ loop brokenBodyEnv ⟨[10, 0, 0, 0], [255, 0, 0, 0]⟩ 16777216 (4 + 1) 0
              = ⟨(iteration brokenBodyEnv ⟨[10, 0, 0, 0], [255, 0, 0, 0]⟩ 16777216 0).1,
                  .panicked
                    (.typed (GoError.other "*errors.errorString" "unexpected EOF").typeName
                      (.other "*errors.errorString" "unexpected EOF"))⟩)
      ∧ (((GoError.other "*errors.errorString" "unexpected EOF") = .deadlineExceeded
          ∨ (GoError.other "*errors.errorString" "unexpected EOF") = .canceled) →
          (iteration brokenBodyEnv ⟨[10, 0, 0, 0], [255, 0, 0, 0]⟩ 16777216 0).2 = none
          ∧ loop brokenBodyEnv ⟨[10, 0, 0, 0], [255, 0, 0, 0]⟩ 16777216 (4 + 1) 0 =
              ⟨(iteration brokenBodyEnv ⟨[10, 0, 0, 0], [255, 0, 0, 0]⟩ 16777216 0).1
                  ++ (loop brokenBodyEnv ⟨[10, 0, 0, 0], [255, 0, 0, 0]⟩ 16777216 4 (0 + 1)).events,
                (loop brokenBodyEnv ⟨[10, 0, 0, 0], [255, 0, 0, 0]⟩ 16777216 4 (0 + 1)).status⟩))
    ∧ (main brokenBodyEnv "10.0.0.0/8" 5).status
        = .panicked (.typed "*errors.errorString" (.other "*errors.errorString" "unexpected EOF"))
    ∧ candidates (main brokenBodyEnv "10.0.0.0/8" 5).events = [[10, 0, 0, 1]] :=
  ⟨by decide,
    drain_errors_fatal_unless_context brokenBodyEnv ⟨[10, 0, 0, 0], [255, 0, 0, 0]⟩ 16777216 0 4 1
      [10, 0, 0, 1] (.other "*errors.errorString" "unexpected EOF")
      (by decide) (by decide) (by decide),
    by decide, by decide⟩

/-- C8: for every value of `--network` that `net.ParseCIDR` rejects, and for
every value it parses to a network whose address is not four bytes long,
`main` panics with the configuration error before the loop: the run has no
random draw, no invocation of `call` and no HTTP request, whatever the number
of iterations the loop would be allowed. -/
theorem bad_network_no_probe (env : Env) (s : String) (fuel : Nat)
    (h : ParseCIDR env.parseIPv6 s = none
      ∨ ∃ ip n, ParseCIDR env.parseIPv6 s = some (ip, n) ∧ n.IP.length ≠ IPv4len) :
    ((main env s fuel).status = .panicked (.error (cidrParseError s))
        ∨ (main env s fuel).status = .panicked (.text "Only IPv4 supported"))
      ∧ candidates (main env s fuel).events = []
      ∧ draws (main env s fuel).events = []
      ∧ (∀ ev ∈ (main env s fuel).events, ∃ m, ev = .log m) := by
  rcases h with h | ⟨ip, n, h, hlen⟩
  · unfold main
    rw [h]
    exact ⟨Or.inl rfl, rfl, rfl, by simp⟩
  · unfold main
    rw [h]
    simp only
    rw [if_pos hlen]
    exact ⟨Or.inr rfl, rfl, rfl, by simp⟩

/-- Witness of C8: `--network not-a-cidr`, and the IPv6 network `::1/128`. -/
theorem bad_network_no_probe_witness :
    ParseCIDR sampleEnv.parseIPv6 "not-a-cidr" = none
    ∧ (((main sampleEnv "not-a-cidr" 1000).status
          = .panicked (.error (cidrParseError "not-a-cidr"))
        ∨ (main sampleEnv "not-a-cidr" 1000).status = .panicked (.text "Only IPv4 supported"))
      ∧ candidates (main sampleEnv "not-a-cidr" 1000).events = []
      ∧ draws (main sampleEnv "not-a-cidr" 1000).events = []
      ∧ (∀ ev ∈ (main sampleEnv "not-a-cidr" 1000).events, ∃ m, ev = .log m))
    ∧ (main sampleEnv "::1/128" 5).status = .panicked (.text "Only IPv4 supported")
    ∧ (main sampleEnv "not-a-cidr" 5).status
        = .panicked (.error (cidrParseError "not-a-cidr")) :=
  ⟨by decide, bad_network_no_probe sampleEnv "not-a-cidr" 1000 (Or.inl (by decide)),
    by decide, by decide⟩

theorem candidates_log_cons (m : Msg) (evs : List Event) :
    candidates (.log m :: evs) = candidates evs := rfl

/-- The candidate number `k` of a run of `main` is the candidate of
iteration `k` of its loop. -/
theorem main_candidates (env : Env) (s : String) (fuel k : Nat) (c : IP)
    (h : (candidates (main env s fuel).events)[k]? = some c) :
    ∃ ip n max, ParseCIDR env.parseIPv6 s = some (ip, n) ∧ maxOf n = some max
      ∧ candidateAt env n max k = some c := by
  unfold main at h
  cases hpc : ParseCIDR env.parseIPv6 s with
  | none =>
    rw [hpc] at h
    simp [candidates] at h
  | some r =>
    obtain ⟨ip, n⟩ := r
    rw [hpc] at h
    simp only at h
    by_cases hlen : n.IP.length ≠ IPv4len
    · rw [if_pos hlen] at h
      simp [candidates] at h
    · rw [if_neg hlen] at h
      cases hmax : maxOf n with
      | none =>
        rw [hmax] at h
        simp [candidates] at h
      | some max =>
        rw [hmax] at h
        simp only [candidates_log_cons] at h
        have := loop_candidates env n max fuel 0 k c h
        rw [Nat.zero_add] at this
        exact ⟨ip, n, max, rfl, hmax, this⟩

theorem main_running_length (env : Env) (s : String) (fuel : Nat)
    (h : (main env s fuel).status = .running) :
    (candidates (main env s fuel).events).length = fuel := by
  unfold main at h ⊢
  cases hpc : ParseCIDR env.parseIPv6 s with
  | none =>
    rw [hpc] at h
    simp at h
  | some r =>
    obtain ⟨ip, n⟩ := r
    rw [hpc] at h
    simp only at h ⊢
    by_cases hlen : n.IP.length ≠ IPv4len
    · rw [if_pos hlen] at h
      simp at h
    · rw [if_neg hlen] at h ⊢
      cases hmax : maxOf n with
      | none =>
        rw [hmax] at h
        simp at h
      | some max =>
        rw [hmax] at h
        simp only [candidates_log_cons] at h ⊢
        exact loop_running_length env n max fuel 0 h

/-- C9: two runs on the same `--network` value whose pseudo-random sources
yield the same values (and that parse addresses alike) produce the same
candidate at every position both reach, whatever the outcomes of their probes
and however long each runs; candidate number `k` is computed from the network
and draw number `k` alone; and a run that has not panicked after `fuel`
iterations has produced `fuel` candidates. -/
theorem candidates_determined_by_draws (env1 env2 : Env) (s : String) (f1 f2 : Nat)
    (hp : env1.parseIPv6 = env2.parseIPv6) (hr : env1.int31 = env2.int31) :
    (∀ (k : Nat) (c1 c2 : IP), (candidates (main env1 s f1).events)[k]? = some c1 →
        (candidates (main env2 s f2).events)[k]? = some c2 → c1 = c2)
      ∧ (∀ (k : Nat) (c : IP), (candidates (main env1 s f1).events)[k]? = some c →
          ∃ ip n max lower, ParseCIDR env1.parseIPv6 s = some (ip, n) ∧ maxOf n = some max
            ∧ Int31n (env1.int31 k) (toInt32 max) = some lower
            ∧ orOffset (IP.Mask n.IP n.Mask) lower = some c)
      ∧ ((main env1 s f1).status = .running →
          (candidates (main env1 s f1).events).length = f1) := by
  refine ⟨?_, ?_, main_running_length env1 s f1⟩
  · intro k c1 c2 h1 h2
    obtain ⟨ip1, n1, max1, hp1, hm1, hc1⟩ := main_candidates env1 s f1 k c1 h1
    obtain ⟨ip2, n2, max2, hp2, hm2, hc2⟩ := main_candidates env2 s f2 k c2 h2
    rw [hp, hp2] at hp1
    injection hp1 with hp1
    injection hp1 with _ hn
    subst hn
    rw [hm2] at hm1
    injection hm1 with hm1
    subst hm1
    unfold candidateAt at hc1 hc2
    rw [hr, hc2] at hc1
    injection hc1 with hc1
    exact hc1.symm
  · intro k c h
    obtain ⟨ip, n, max, hp1, hm1, hc1⟩ := main_candidates env1 s f1 k c h
    unfold candidateAt at hc1
    cases hd : Int31n (env1.int31 k) (toInt32 max) with
    | none =>
      rw [hd] at hc1
      simp at hc1
    | some lower =>
      rw [hd] at hc1
      exact ⟨ip, n, max, lower, hp1, hm1, hd, hc1⟩

/-- Witness of C9: a run of four iterations whose probes are refused, time
out, are cancelled and succeed, against a run on the same draws that panics
in its second iteration. -/
theorem candidates_determined_by_draws_witness :
    (candidates (main sampleEnv "10.0.0.0/8" 4).events
        = [[10, 0, 0, 5], [10, 0, 1, 49], [10, 0, 2, 93], [10, 0, 3, 137]]
      ∧ candidates (main unexpectedEnv "10.0.0.0/8" 9).events = [[10, 0, 0, 5], [10, 0, 1, 49]]
      ∧ sampleEnv.parseIPv6 = unexpectedEnv.parseIPv6 ∧ sampleEnv.int31 = unexpectedEnv.int31
      ∧ sampleEnv.outcome 1 [10, 0, 1, 49] ≠ unexpectedEnv.outcome 1 [10, 0, 1, 49])
    ∧ ((∀ (k : Nat) (c1 c2 : IP), (candidates (main sampleEnv "10.0.0.0/8" 4).events)[k]? = some c1 →
        (candidates (main unexpectedEnv "10.0.0.0/8" 9).events)[k]? = some c2 → c1 = c2)
      ∧ (∀ (k : Nat) (c : IP), (candidates (main sampleEnv "10.0.0.0/8" 4).events)[k]? = some c →
          ∃ ip n max lower, ParseCIDR sampleEnv.parseIPv6 "10.0.0.0/8" = some (ip, n)
            ∧ maxOf n = some max
            ∧ Int31n (sampleEnv.int31 k) (toInt32 max) = some lower
            ∧ orOffset (IP.Mask n.IP n.Mask) lower = some c)
      ∧ ((main sampleEnv "10.0.0.0/8" 4).status = .running →
          (candidates (main sampleEnv "10.0.0.0/8" 4).events).length = 4)) :=
  ⟨⟨by decide, by decide, rfl, rfl, by decide⟩,
    candidates_determined_by_draws sampleEnv unexpectedEnv "10.0.0.0/8" 4 9 rfl rfl⟩

end HttpProber
